import Mathlib

/-!
Shallow embedding of the plan-generation engine of the Virtual Fitness Coach
application.

Embedded source files:
* `planGenerator` (src/unnamed/part_010): `shuffle`, `getTagValue`,
  `generateWorkoutPlan` (the eligibility filter, the bodyweight widening
  branch and the unbounded greedy packing loop).
* `aiWorkoutGenerator` (src/unnamed/part_012): `parseExerciseIds`,
  `generateAIWorkoutPlan` (the same filter, the AI-id assembly loop, the
  "fewer than 3 exercises" dispatch) and `fallbackGenerate` (shuffle plus
  the two-cycle-bounded packing loop).
* the Supabase edge function (src/unnamed/part_004): the id-extraction
  logic of its `serve` handler.

Modelling conventions: machine numbers are `Nat` (all quantities involved
are non-negative integers of small magnitude, no overflow is reachable);
`Math.random`-driven choices are threaded through an explicit `rand`
function, with `rand i % (i + 1)` standing for
`Math.floor(Math.random() * (i + 1))`; the two network transports of the
AI tier are abstracted into an `AIOutcome` value (`fail` for any thrown /
timed-out / non-2xx / malformed-body outcome caught by the `try`/`catch`,
`ids` for a successfully obtained id list), since the claims quantify over
all transport behaviours; the unbounded `while` loop of
`generateWorkoutPlan` is embedded with a fuel parameter, and a stability
lemma shows the chosen fuel is past the loop's termination point.
-/

/-- Catalog entity (`Exercise` of src/frontend types): stable id, display
name, instructional text, canonical duration in seconds, freeform
`facet:value` tags. The media URL field plays no role in any claim and is
omitted from the record. -/
structure Exercise where
  id : String
  name : String
  description : String
  duration_seconds : Nat
  tags : List String
deriving Repr, DecidableEq

/-- Input entity (`UserPreferences`): goal label, equipment id set, target
duration in minutes, difficulty ceiling label. -/
structure UserPreferences where
  goal : String
  equipment : List String
  durationMinutes : Nat
  difficulty : String
deriving Repr, DecidableEq

/-- Kind of a plan item (`type: 'exercise' | 'rest'`). -/
inductive ItemType where
  | exercise
  | rest
deriving Repr, DecidableEq

/-- Output entity (`PlanItem`): kind, duration in seconds, optional source
exercise, display title. -/
structure PlanItem where
  type : ItemType
  duration : Nat
  exercise : Option Exercise
  title : String
deriving Repr, DecidableEq

/-- The fixed rest length (`REST_DURATION = 30`) used by every packing
loop. -/
def REST_DURATION : Nat := 30

/-- The exercise plan item pushed by every packing loop:
`{type:'exercise', duration: ex.duration_seconds, exercise: ex, title: ex.name}`. -/
def mkExItem (ex : Exercise) : PlanItem :=
  { type := ItemType.exercise, duration := ex.duration_seconds,
    exercise := some ex, title := ex.name }

/-- The rest plan item pushed by every packing loop:
`{type:'rest', duration: REST_DURATION, title:'休息', exercise: undefined}`. -/
def restItem : PlanItem :=
  { type := ItemType.rest, duration := REST_DURATION, exercise := none, title := "休息" }

/-- Placeholder for the value of a JS out-of-bounds array access; every
theorem below that touches a packing loop assumes a non-empty exercise
list, under which this placeholder is never selected. -/
def dfltEx : Exercise :=
  { id := "", name := "", description := "", duration_seconds := 0, tags := [] }

/-- Model of `String.prototype.startsWith`: the second list is a leading
piece of the first. (The string primitives of the JS runtime are embedded
as structural recursions over character lists so that concrete runs reduce
inside the kernel.) -/
def startsWithL : List Char → List Char → Bool
  | _, [] => true
  | [], _ :: _ => false
  | c :: cs, p :: ps => c = p && startsWithL cs ps

/-- Model of `String.prototype.split` with a one-character separator:
accumulator-passing loop over the characters. `splitOnCharL ':'` sends
`"a:b:c"` to `["a","b","c"]`, `"a:"` to `["a",""]` and `""` to `[""]`,
as in JS. -/
def splitOnCharGo (sep : Char) : List Char → List Char → List (List Char)
  | acc, [] => [acc.reverse]
  | acc, c :: cs =>
    if c = sep then acc.reverse :: splitOnCharGo sep [] cs
    else splitOnCharGo sep (c :: acc) cs

/-- Split a character list on a separator character. -/
def splitOnCharL (sep : Char) (cs : List Char) : List (List Char) :=
  splitOnCharGo sep [] cs

/-- `getTagValue` of part_010: first tag starting with `fac ++ ":"`,
split on `:`, second component (`tag.split(':')[1]`); `null` (here `none`)
when absent. part_012 lines 246 and 256 inline the identical expression
`tags.find(t => t.startsWith(fac + ':'))?.split(':')[1]`. -/
def getTagValue (tags : List String) (fac : String) : Option String :=
  (tags.find? (fun t => startsWithL t.toList (fac.toList ++ [':']))).map
    (fun t => String.mk ((splitOnCharL ':' t.toList).getD 1 []))

/-- The equipment-id mapping of the filter in part_010 lines 92-99 and
part_012 lines 246-251: the four recognised Chinese labels map to their
ids, everything else (a missing tag included) falls to the initial
`'bodyweight'` default. -/
def equipmentId (tags : List String) : String :=
  let eqTag := getTagValue tags "equipment"
  if eqTag = some "啞鈴" then "dumbbell"
  else if eqTag = some "彈力帶" then "band"
  else if eqTag = some "壺鈴" then "kettlebell"
  else if eqTag = some "徒手" then "bodyweight"
  else "bodyweight"

/-- The eligibility predicate of part_010 lines 86-117; part_012 lines
242-261 perform the same test (the two difficulty guard styles,
`if/else if` there versus two independent `if`s here, coincide because the
difficulty label selects at most one guard). -/
def passesFilter (prefs : UserPreferences) (ex : Exercise) : Bool :=
  if !(prefs.equipment.contains (equipmentId ex.tags)) then false
  else if prefs.difficulty = "beginner" then
    getTagValue ex.tags "difficulty" == some "初階"
  else if prefs.difficulty = "intermediate" then
    getTagValue ex.tags "difficulty" != some "高階"
  else true

/-- One Fisher-Yates swap `[arr[i], arr[j]] = [arr[j], arr[i]]`; identity
when an index is out of bounds (never the case in the loop below). -/
def swapE {α : Type} (l : List α) (i j : Nat) : List α :=
  match l[i]?, l[j]? with
  | some a, some b => (l.set i b).set j a
  | _, _ => l

/-- The Fisher-Yates loop of part_010 lines 21-24 (and its copy in
part_012 lines 374-377): `i` runs from `arr.length - 1` down to `1`,
swapping index `i` with index `rand i % (i + 1)`, the model of
`Math.floor(Math.random() * (i + 1))`. -/
def shuffleGo {α : Type} (rand : Nat → Nat) : List α → Nat → List α
  | l, 0 => l
  | l, i + 1 => shuffleGo rand (swapE l (i + 1) (rand (i + 1) % (i + 2))) i

/-- `shuffle` of part_010 / the inline shuffle of `fallbackGenerate`. -/
def shuffle {α : Type} (rand : Nat → Nat) (l : List α) : List α :=
  shuffleGo rand l (l.length - 1)

/-- The packing `while` loop of `generateWorkoutPlan` (part_010 lines
143-172), embedded with a fuel parameter: push the exercise at
`index % length`; stop right after it when the target is reached;
otherwise push a 30s rest only when the running total plus the rest still
lies strictly below the target, and loop. The source loop has no other
exit; `packGo_stable` below shows any fuel of at least
`target - cur` yields the loop's limit. -/
def packGo (exs : List Exercise) (target : Nat) : Nat → Nat → Nat → List PlanItem
  | 0, _, _ => []
  | fuel + 1, cur, index =>
    if cur < target then
      if target ≤ cur + (exs.getD (index % exs.length) dfltEx).duration_seconds then
        [mkExItem (exs.getD (index % exs.length) dfltEx)]
      else if cur + (exs.getD (index % exs.length) dfltEx).duration_seconds +
          REST_DURATION < target then
        mkExItem (exs.getD (index % exs.length) dfltEx) :: restItem ::
          packGo exs target fuel
            (cur + (exs.getD (index % exs.length) dfltEx).duration_seconds + REST_DURATION)
            (index + 1)
      else
        mkExItem (exs.getD (index % exs.length) dfltEx) ::
          packGo exs target fuel
            (cur + (exs.getD (index % exs.length) dfltEx).duration_seconds) (index + 1)
    else []

/-- `generateWorkoutPlan` of part_010: filter, then on an empty result the
bodyweight widening branch (lines 120-132: all `equipment:徒手`-tagged
exercises of the unfiltered catalog, first five, as exercise items), otherwise
shuffle and pack toward `durationMinutes * 60`. -/
def generateWorkoutPlan (rand : Nat → Nat) (allExercises : List Exercise)
    (prefs : UserPreferences) : List PlanItem :=
  let filtered := allExercises.filter (passesFilter prefs)
  if filtered.length = 0 then
    ((allExercises.filter (fun ex => ex.tags.contains "equipment:徒手")).take 5).map mkExItem
  else
    packGo (shuffle rand filtered) (prefs.durationMinutes * 60)
      (prefs.durationMinutes * 60) 0 0

/-- The packing `while` loop of `fallbackGenerate` (part_012 lines
384-409): identical body to `packGo`, but the loop condition additionally
requires `index < shuffled.length * 2`, which bounds the iteration count
by `shuffled.length * 2 - index` (each pass increments `index`). The loop
is embedded with a fuel parameter so that concrete runs reduce inside the
kernel; `fbGo_add` below shows any fuel past that bound yields the loop's
limit. -/
def fbGo (exs : List Exercise) (target : Nat) : Nat → Nat → Nat → List PlanItem
  | 0, _, _ => []
  | fuel + 1, cur, index =>
    if cur < target ∧ index < exs.length * 2 then
      if target ≤ cur + (exs.getD (index % exs.length) dfltEx).duration_seconds then
        [mkExItem (exs.getD (index % exs.length) dfltEx)]
      else if cur + (exs.getD (index % exs.length) dfltEx).duration_seconds +
          REST_DURATION < target then
        mkExItem (exs.getD (index % exs.length) dfltEx) :: restItem ::
          fbGo exs target fuel
            (cur + (exs.getD (index % exs.length) dfltEx).duration_seconds + REST_DURATION)
            (index + 1)
      else
        mkExItem (exs.getD (index % exs.length) dfltEx) ::
          fbGo exs target fuel
            (cur + (exs.getD (index % exs.length) dfltEx).duration_seconds) (index + 1)
    else []

/-- `fallbackGenerate` of part_012 lines 369-412: Fisher-Yates shuffle of
the given exercises, then the bounded packing loop (granted one step more
fuel than its iteration bound `length * 2`). -/
def fallbackGenerate (rand : Nat → Nat) (exercises : List Exercise)
    (prefs : UserPreferences) : List PlanItem :=
  fbGo (shuffle rand exercises) (prefs.durationMinutes * 60)
    ((shuffle rand exercises).length * 2 + 1) 0 0

/-- The id-assembly `for` loop of `generateAIWorkoutPlan` (part_012 lines
320-348): for each AI-suggested id, look it up in the filtered set
(`filteredExercises.find(ex => ex.id === id)`), skip unknown ids
(`continue`), break when the exercise would push the total past
`target + 60`, otherwise append the exercise and, when the total plus a
rest is still strictly below the target, a rest. -/
def buildFromIds (filtered : List Exercise) (target : Nat) :
    List String → Nat → List PlanItem
  | [], _ => []
  | id :: ids, cur =>
    match filtered.find? (fun ex => ex.id == id) with
    | none => buildFromIds filtered target ids cur
    | some ex =>
      if target + 60 < cur + ex.duration_seconds then []
      else if cur + ex.duration_seconds + REST_DURATION < target then
        mkExItem ex :: restItem ::
          buildFromIds filtered target ids (cur + ex.duration_seconds + REST_DURATION)
      else
        mkExItem ex :: buildFromIds filtered target ids (cur + ex.duration_seconds)

/-- Abstraction of the AI tier of part_012: `fail` stands for any
execution in which both transports (edge proxy and direct provider call)
end in a thrown error caught by the surrounding `try`/`catch` (transport
error, timeout, non-2xx, malformed body, missing credential); `ids`
stands for a run in which some transport produced an id list (possibly
empty, as after an unparseable body on the direct path). -/
inductive AIOutcome where
  | fail
  | ids (selected : List String)
deriving Repr, DecidableEq

/-- `generateAIWorkoutPlan` of part_012 lines 235-363: filter; on an
empty filtered set, `fallbackGenerate` over the whole catalog (line 265);
on a caught AI error or an empty id list, `fallbackGenerate` over the
filtered set; otherwise assemble from the suggested ids and discard the
result in favour of `fallbackGenerate` when it holds fewer than 3
exercise items (lines 351-354). -/
def generateAIWorkoutPlan (rand : Nat → Nat) (ai : AIOutcome)
    (allExercises : List Exercise) (prefs : UserPreferences) : List PlanItem :=
  let filtered := allExercises.filter (passesFilter prefs)
  if filtered.length = 0 then
    fallbackGenerate rand allExercises prefs
  else
    match ai with
    | AIOutcome.fail => fallbackGenerate rand filtered prefs
    | AIOutcome.ids selected =>
      if selected.length = 0 then fallbackGenerate rand filtered prefs
      else
        let plan := buildFromIds filtered (prefs.durationMinutes * 60) selected 0
        if (plan.filter (fun p => p.type == ItemType.exercise)).length < 3 then
          fallbackGenerate rand filtered prefs
        else plan

/-- Number of exercise items of a plan
(`plan.filter(p => p.type === 'exercise').length`). -/
def countExercise (plan : List PlanItem) : Nat :=
  (plan.filter (fun p => p.type == ItemType.exercise)).length

/-- Total duration of a plan in seconds. -/
def planDuration (plan : List PlanItem) : Nat :=
  (plan.map PlanItem.duration).sum

/-! ### Helper lemmas about plan measures -/

/-- Duration of an empty plan. -/
theorem planDuration_nil : planDuration [] = 0 := rfl

/-- Duration of a plan decomposes over cons. -/
theorem planDuration_cons (a : PlanItem) (l : List PlanItem) :
    planDuration (a :: l) = a.duration + planDuration l := by
  simp [planDuration]

/-- Exercise count of an empty plan. -/
theorem countExercise_nil : countExercise [] = 0 := rfl

/-- Exercise count grows by one over an exercise item. -/
theorem countExercise_cons_ex (ex : Exercise) (l : List PlanItem) :
    countExercise (mkExItem ex :: l) = countExercise l + 1 := rfl

/-- Exercise count ignores rest items. -/
theorem countExercise_cons_rest (l : List PlanItem) :
    countExercise (restItem :: l) = countExercise l := rfl

/-- A plan with at least one exercise item is non-empty. -/
theorem ne_nil_of_countExercise_pos {l : List PlanItem} (h : 0 < countExercise l) :
    l ≠ [] := by
  intro hnil
  rw [hnil, countExercise_nil] at h
  omega

/-! ### Helper lemmas about the Fisher-Yates shuffle -/

/-- A swap does not change length. -/
theorem swapE_length {α : Type} (l : List α) (i j : Nat) :
    (swapE l i j).length = l.length := by
  unfold swapE
  split
  · simp
  · rfl

/-- Every element of a swapped list is an element of the original. -/
theorem swapE_mem {α : Type} {l : List α} {i j : Nat} {a : α}
    (h : a ∈ swapE l i j) : a ∈ l := by
  unfold swapE at h
  split at h
  · rename_i x y h1 h2
    rcases List.mem_or_eq_of_mem_set h with h' | rfl
    · rcases List.mem_or_eq_of_mem_set h' with h'' | rfl
      · exact h''
      · exact List.getElem?_mem h2
    · exact List.getElem?_mem h1
  · exact h

/-- The shuffle loop does not change length. -/
theorem shuffleGo_length {α : Type} (rand : Nat → Nat) :
    ∀ (n : Nat) (l : List α), (shuffleGo rand l n).length = l.length := by
  intro n
  induction n with
  | zero => intro l; rfl
  | succ i ih =>
    intro l
    rw [shuffleGo, ih, swapE_length]

/-- Every element of the shuffle loop's output is an element of its input. -/
theorem shuffleGo_mem {α : Type} (rand : Nat → Nat) :
    ∀ (n : Nat) (l : List α) (a : α), a ∈ shuffleGo rand l n → a ∈ l := by
  intro n
  induction n with
  | zero => intro l a h; exact h
  | succ i ih =>
    intro l a h
    rw [shuffleGo] at h
    exact swapE_mem (ih _ _ h)

/-- `shuffle` preserves length. -/
theorem shuffle_length {α : Type} (rand : Nat → Nat) (l : List α) :
    (shuffle rand l).length = l.length :=
  shuffleGo_length rand _ l

/-- `shuffle` preserves non-emptiness. -/
theorem shuffle_ne_nil {α : Type} (rand : Nat → Nat) {l : List α} (h : l ≠ []) :
    shuffle rand l ≠ [] := by
  intro hc
  apply h
  have := shuffle_length rand l
  rw [hc] at this
  exact List.length_eq_zero.mp this.symm

/-- Every element of a shuffled list is an element of the original. -/
theorem shuffle_mem {α : Type} {rand : Nat → Nat} {l : List α} {a : α}
    (h : a ∈ shuffle rand l) : a ∈ l :=
  shuffleGo_mem rand _ l a h

/-- The cyclic read `shuffled[index % shuffled.length]` picks an element of
the list whenever it is non-empty. -/
theorem getD_mod_mem {l : List Exercise} (h : l ≠ []) (i : Nat) :
    l.getD (i % l.length) dfltEx ∈ l := by
  have hlen : 0 < l.length := List.length_pos.mpr h
  have hm : i % l.length < l.length := Nat.mod_lt _ hlen
  rw [List.getD_eq_getElem?_getD, List.getElem?_eq_getElem hm]
  exact List.getElem_mem hm

/-! ### Lemmas about the unbounded packing loop of `generateWorkoutPlan` -/

/-- Once the running total reaches the target, the loop body is never
entered. -/
theorem packGo_stop (exs : List Exercise) (target fuel cur index : Nat)
    (h : ¬ cur < target) : packGo exs target fuel cur index = [] := by
  cases fuel with
  | zero => rfl
  | succ Fuel => rw [packGo, if_neg h]

/-- Granting the loop extra fuel beyond `target - cur` does not change its
output: with positive exercise durations the loop has already terminated by
then. This is the termination argument for the source's unbounded `while`
loop. -/
theorem packGo_add (exs : List Exercise) (target : Nat)
    (hne : exs ≠ []) (hpos : ∀ ex ∈ exs, 0 < ex.duration_seconds) :
    ∀ fuel k cur index, target ≤ cur + fuel →
      packGo exs target (fuel + k) cur index = packGo exs target fuel cur index := by
  intro fuel
  induction fuel with
  | zero =>
    intro k cur index h
    rw [Nat.zero_add, packGo_stop _ _ _ _ _ (by omega)]
    rfl
  | succ fuel ih =>
    intro k cur index h
    have hstep : fuel + 1 + k = (fuel + k) + 1 := by omega
    rw [hstep]
    by_cases hc : cur < target
    · have hd : 0 < (exs.getD (index % exs.length) dfltEx).duration_seconds :=
        hpos _ (getD_mod_mem hne _)
      rw [packGo, packGo, if_pos hc, if_pos hc]
      split
      · rfl
      · rename_i h1
        split
        · rename_i h2
          rw [ih k _ (index + 1) (by omega)]
        · rw [ih k _ (index + 1) (by omega)]
    · rw [packGo_stop _ _ _ _ _ hc, packGo_stop _ _ _ _ _ hc]

/-- Fuel-independence of the packing loop: any two fuels past
`target - cur` give the same plan. -/
theorem packGo_stable (exs : List Exercise) (target : Nat)
    (hne : exs ≠ []) (hpos : ∀ ex ∈ exs, 0 < ex.duration_seconds)
    (fuel1 fuel2 cur index : Nat)
    (h1 : target ≤ cur + fuel1) (h2 : target ≤ cur + fuel2) :
    packGo exs target fuel1 cur index = packGo exs target fuel2 cur index := by
  rcases Nat.le_total fuel1 fuel2 with h | h
  · obtain ⟨k, rfl⟩ := Nat.le.dest h
    exact (packGo_add exs target hne hpos fuel1 k cur index h1).symm
  · obtain ⟨k, rfl⟩ := Nat.le.dest h
    exact packGo_add exs target hne hpos fuel2 k cur index h2

/-- With fuel left and the target not yet met, the loop emits an exercise
item first. -/
theorem packGo_head (exs : List Exercise) (target fuel cur index : Nat)
    (hc : cur < target) (hf : 0 < fuel) :
    ∃ ex t, packGo exs target fuel cur index = mkExItem ex :: t := by
  cases fuel with
  | zero => omega
  | succ fuel =>
    rw [packGo, if_pos hc]
    split
    · exact ⟨_, _, rfl⟩
    · split
      · exact ⟨_, _, rfl⟩
      · exact ⟨_, _, rfl⟩

/-- Every item the packing loop emits is either the rest item or an
exercise item built from a member of the input list. -/
theorem packGo_mem (exs : List Exercise) (target : Nat) (hne : exs ≠ []) :
    ∀ fuel cur index it, it ∈ packGo exs target fuel cur index →
      it = restItem ∨ ∃ ex ∈ exs, it = mkExItem ex := by
  intro fuel
  induction fuel with
  | zero => intro cur index it h; simp [packGo] at h
  | succ fuel ih =>
    intro cur index it h
    by_cases hc : cur < target
    · rw [packGo, if_pos hc] at h
      split at h
      · rw [List.mem_singleton] at h
        exact Or.inr ⟨_, getD_mod_mem hne _, h⟩
      · split at h
        · simp only [List.mem_cons] at h
          rcases h with rfl | rfl | h
          · exact Or.inr ⟨_, getD_mod_mem hne _, rfl⟩
          · exact Or.inl rfl
          · exact ih _ _ _ h
        · simp only [List.mem_cons] at h
          rcases h with rfl | h
          · exact Or.inr ⟨_, getD_mod_mem hne _, rfl⟩
          · exact ih _ _ _ h
    · rw [packGo_stop _ _ _ _ _ hc] at h
      simp at h

/-- With enough fuel the packing loop never ends on a rest item: the last
item is an exercise. -/
theorem packGo_last (exs : List Exercise) (target : Nat)
    (hne : exs ≠ []) (hpos : ∀ ex ∈ exs, 0 < ex.duration_seconds) :
    ∀ fuel cur index, cur < target → target ≤ cur + fuel →
      ∀ it, (packGo exs target fuel cur index).getLast? = some it →
        it.type = ItemType.exercise := by
  intro fuel
  induction fuel with
  | zero => intro cur index hc hf it h; omega
  | succ fuel ih =>
    intro cur index hc hf it h
    have hd : 0 < (exs.getD (index % exs.length) dfltEx).duration_seconds :=
      hpos _ (getD_mod_mem hne _)
    rw [packGo, if_pos hc] at h
    split at h
    · rw [List.getLast?_singleton, Option.some_inj] at h
      rw [← h]
      rfl
    · rename_i h1
      split at h
      · rename_i h2
        obtain ⟨ex', t, heq⟩ :=
          packGo_head exs target fuel _ (index + 1) h2 (by omega)
        rw [heq, List.getLast?_cons_cons, List.getLast?_cons_cons, ← heq] at h
        exact ih _ (index + 1) h2 (by omega) it h
      · rename_i h2
        have hc' : cur + (exs.getD (index % exs.length) dfltEx).duration_seconds < target := by
          omega
        obtain ⟨ex', t, heq⟩ :=
          packGo_head exs target fuel _ (index + 1) hc' (by omega)
        rw [heq, List.getLast?_cons_cons, ← heq] at h
        exact ih _ (index + 1) hc' (by omega) it h

/-- Budget bounds of the unbounded packing loop: with positive durations
all of size at most `D`, the emitted plan closes the remaining gap to the
target but overshoots it by strictly less than `D`. -/
theorem packGo_sum (exs : List Exercise) (target D : Nat)
    (hne : exs ≠ []) (hpos : ∀ ex ∈ exs, 0 < ex.duration_seconds)
    (hD : ∀ ex ∈ exs, ex.duration_seconds ≤ D) :
    ∀ fuel cur index, cur < target → target ≤ cur + fuel →
      target ≤ cur + planDuration (packGo exs target fuel cur index) ∧
      cur + planDuration (packGo exs target fuel cur index) < target + D := by
  intro fuel
  induction fuel with
  | zero => intro cur index hc hf; omega
  | succ fuel ih =>
    intro cur index hc hf
    have hd : 0 < (exs.getD (index % exs.length) dfltEx).duration_seconds :=
      hpos _ (getD_mod_mem hne _)
    have hdD : (exs.getD (index % exs.length) dfltEx).duration_seconds ≤ D :=
      hD _ (getD_mod_mem hne _)
    rw [packGo, if_pos hc]
    split
    · rename_i h1
      rw [planDuration_cons, planDuration_nil]
      simp only [mkExItem]
      omega
    · rename_i h1
      split
      · rename_i h2
        have hrec := ih
          (cur + (exs.getD (index % exs.length) dfltEx).duration_seconds + REST_DURATION)
          (index + 1) h2 (by omega)
        rw [planDuration_cons, planDuration_cons]
        simp only [mkExItem, restItem]
        omega
      · rename_i h2
        have hrec := ih
          (cur + (exs.getD (index % exs.length) dfltEx).duration_seconds)
          (index + 1) (by omega) (by omega)
        rw [planDuration_cons]
        simp only [mkExItem]
        omega

/-! ### Lemmas about the bounded packing loop of `fallbackGenerate` -/

/-- Once the target is met or two full cycles are done, the loop exits. -/
theorem fbGo_stop (exs : List Exercise) (target fuel cur index : Nat)
    (h : ¬ (cur < target ∧ index < exs.length * 2)) :
    fbGo exs target fuel cur index = [] := by
  cases fuel with
  | zero => rfl
  | succ fuel => rw [fbGo, if_neg h]

/-- Granting the bounded loop extra fuel past its intrinsic iteration
bound does not change its output: the fuel embedding computes the source
loop's limit. -/
theorem fbGo_add (exs : List Exercise) (target : Nat) :
    ∀ fuel k cur index, exs.length * 2 - index < fuel →
      fbGo exs target (fuel + k) cur index = fbGo exs target fuel cur index := by
  intro fuel
  induction fuel with
  | zero => intro k cur index h; omega
  | succ fuel ih =>
    intro k cur index h
    have hstep : fuel + 1 + k = (fuel + k) + 1 := by omega
    rw [hstep]
    by_cases hcond : cur < target ∧ index < exs.length * 2
    · rw [fbGo, fbGo, if_pos hcond, if_pos hcond]
      split
      · rfl
      · split
        · rw [ih k _ (index + 1) (by omega)]
        · rw [ih k _ (index + 1) (by omega)]
    · rw [fbGo_stop _ _ _ _ _ hcond, fbGo_stop _ _ _ _ _ hcond]

/-- With fuel left and the loop condition satisfied, the loop emits an
exercise item first. -/
theorem fbGo_head (exs : List Exercise) (target fuel cur index : Nat)
    (hc : cur < target) (hi : index < exs.length * 2) (hf : 0 < fuel) :
    ∃ ex t, fbGo exs target fuel cur index = mkExItem ex :: t := by
  cases fuel with
  | zero => omega
  | succ fuel =>
    rw [fbGo, if_pos ⟨hc, hi⟩]
    split
    · exact ⟨_, _, rfl⟩
    · split
      · exact ⟨_, _, rfl⟩
      · exact ⟨_, _, rfl⟩

/-- The bounded loop emits at most `2 * length - index` exercise items:
each iteration advances `index` by one and the loop condition demands
`index < 2 * length`. -/
theorem fbGo_count (exs : List Exercise) (target : Nat) :
    ∀ (fuel cur index : Nat),
      countExercise (fbGo exs target fuel cur index) ≤ exs.length * 2 - index := by
  intro fuel
  induction fuel with
  | zero =>
    intro cur index
    show countExercise [] ≤ exs.length * 2 - index
    rw [countExercise_nil]
    omega
  | succ fuel ih =>
    intro cur index
    by_cases hcond : cur < target ∧ index < exs.length * 2
    · rw [fbGo, if_pos hcond]
      split
      · have h1 : countExercise [mkExItem (exs.getD (index % exs.length) dfltEx)] = 1 := rfl
        rw [h1]
        omega
      · split
        · rw [countExercise_cons_ex, countExercise_cons_rest]
          have := ih
            (cur + (exs.getD (index % exs.length) dfltEx).duration_seconds + REST_DURATION)
            (index + 1)
          omega
        · rw [countExercise_cons_ex]
          have := ih
            (cur + (exs.getD (index % exs.length) dfltEx).duration_seconds)
            (index + 1)
          omega
    · rw [fbGo_stop _ _ _ _ _ hcond, countExercise_nil]
      omega

/-- Every item the bounded loop emits is either the rest item or an
exercise item built from a member of the input list. -/
theorem fbGo_mem (exs : List Exercise) (target : Nat) (hne : exs ≠ []) :
    ∀ (fuel cur index : Nat) (it : PlanItem), it ∈ fbGo exs target fuel cur index →
      it = restItem ∨ ∃ ex ∈ exs, it = mkExItem ex := by
  intro fuel
  induction fuel with
  | zero => intro cur index it hit; simp [fbGo] at hit
  | succ fuel ih =>
    intro cur index it hit
    by_cases hcond : cur < target ∧ index < exs.length * 2
    · rw [fbGo, if_pos hcond] at hit
      split at hit
      · rw [List.mem_singleton] at hit
        exact Or.inr ⟨_, getD_mod_mem hne _, hit⟩
      · split at hit
        · simp only [List.mem_cons] at hit
          rcases hit with rfl | rfl | hit
          · exact Or.inr ⟨_, getD_mod_mem hne _, rfl⟩
          · exact Or.inl rfl
          · exact ih _ (index + 1) it hit
        · simp only [List.mem_cons] at hit
          rcases hit with rfl | hit
          · exact Or.inr ⟨_, getD_mod_mem hne _, rfl⟩
          · exact ih _ (index + 1) it hit
    · rw [fbGo_stop _ _ _ _ _ hcond] at hit
      simp at hit

/-- Budget upper bound of the bounded loop: with durations at most `D`,
the emitted plan's total keeps the running total strictly below
`target + D`. (No lower bound holds: the two-cycle cap may leave the plan
arbitrarily under-filled.) -/
theorem fbGo_sum (exs : List Exercise) (target D : Nat) (hne : exs ≠ [])
    (hD : ∀ ex ∈ exs, ex.duration_seconds ≤ D) :
    ∀ (fuel cur index : Nat), cur < target →
      cur + planDuration (fbGo exs target fuel cur index) < target + D := by
  intro fuel
  induction fuel with
  | zero =>
    intro cur index hc
    show cur + planDuration [] < target + D
    rw [planDuration_nil]
    omega
  | succ fuel ih =>
    intro cur index hc
    have hdD : (exs.getD (index % exs.length) dfltEx).duration_seconds ≤ D :=
      hD _ (getD_mod_mem hne _)
    by_cases hcond : cur < target ∧ index < exs.length * 2
    · rw [fbGo, if_pos hcond]
      split
      · rename_i h1
        rw [planDuration_cons, planDuration_nil]
        simp only [mkExItem]
        omega
      · rename_i h1
        split
        · rename_i h2
          have hrec := ih
            (cur + (exs.getD (index % exs.length) dfltEx).duration_seconds + REST_DURATION)
            (index + 1) h2
          rw [planDuration_cons, planDuration_cons]
          simp only [mkExItem, restItem]
          omega
        · rename_i h2
          have hrec := ih
            (cur + (exs.getD (index % exs.length) dfltEx).duration_seconds)
            (index + 1) (by omega)
          rw [planDuration_cons]
          simp only [mkExItem]
          omega
    · rw [fbGo_stop _ _ _ _ _ hcond, planDuration_nil]
      omega

/-- `fallbackGenerate` over a non-empty list with a positive target yields
a non-empty plan that starts with an exercise item. -/
theorem fallbackGenerate_head (rand : Nat → Nat) (exercises : List Exercise)
    (prefs : UserPreferences) (hne : exercises ≠ [])
    (hdur : 0 < prefs.durationMinutes) :
    ∃ ex t, fallbackGenerate rand exercises prefs = mkExItem ex :: t := by
  unfold fallbackGenerate
  apply fbGo_head
  · omega
  · have := shuffle_length rand exercises
    have hlen : 0 < exercises.length := List.length_pos.mpr hne
    omega
  · omega

/-- `fallbackGenerate` over a non-empty list with a positive target is
non-empty. -/
theorem fallbackGenerate_ne_nil (rand : Nat → Nat) (exercises : List Exercise)
    (prefs : UserPreferences) (hne : exercises ≠ [])
    (hdur : 0 < prefs.durationMinutes) :
    fallbackGenerate rand exercises prefs ≠ [] := by
  obtain ⟨ex, t, heq⟩ := fallbackGenerate_head rand exercises prefs hne hdur
  rw [heq]
  exact List.cons_ne_nil _ _

/-! ### Lemmas about the AI-id assembly loop -/

/-- An id with no match in the filtered set contributes nothing: the
assembled plan is the one for the remaining ids. -/
theorem buildFromIds_skip (filtered : List Exercise) (target : Nat)
    (id : String) (ids : List String) (cur : Nat)
    (h : id ∉ filtered.map Exercise.id) :
    buildFromIds filtered target (id :: ids) cur =
      buildFromIds filtered target ids cur := by
  have hfind : filtered.find? (fun ex => ex.id == id) = none := by
    rw [List.find?_eq_none]
    intro ex hex hbeq
    apply h
    rw [List.mem_map]
    exact ⟨ex, hex, eq_of_beq hbeq⟩
  rw [buildFromIds, hfind]

/-- Every item of the assembled plan is either the rest item or an
exercise item built from a member of the filtered set whose id occurs
among the suggested ids. -/
theorem buildFromIds_mem (filtered : List Exercise) (target : Nat) :
    ∀ (ids : List String) (cur : Nat) (it : PlanItem),
      it ∈ buildFromIds filtered target ids cur →
      it = restItem ∨
        ∃ ex, ex ∈ filtered ∧ ex.id ∈ ids ∧ it = mkExItem ex := by
  intro ids
  induction ids with
  | nil => intro cur it h; simp [buildFromIds] at h
  | cons id ids ih =>
    intro cur it h
    rw [buildFromIds] at h
    rcases hfind : filtered.find? (fun ex => ex.id == id) with _ | ex
    · rw [hfind] at h
      rcases ih cur it h with h' | ⟨ex, hmem, hid, heq⟩
      · exact Or.inl h'
      · exact Or.inr ⟨ex, hmem, List.mem_cons_of_mem _ hid, heq⟩
    · rw [hfind] at h
      have hexmem : ex ∈ filtered := List.mem_of_find?_eq_some hfind
      have hexid : ex.id = id := by simpa using List.find?_some hfind
      replace h : it ∈
          (if target + 60 < cur + ex.duration_seconds then ([] : List PlanItem)
           else if cur + ex.duration_seconds + REST_DURATION < target then
             mkExItem ex :: restItem ::
               buildFromIds filtered target ids (cur + ex.duration_seconds + REST_DURATION)
           else
             mkExItem ex :: buildFromIds filtered target ids (cur + ex.duration_seconds)) := h
      split at h
      · simp at h
      · split at h
        · simp only [List.mem_cons] at h
          rcases h with rfl | rfl | h
          · exact Or.inr ⟨ex, hexmem, by rw [hexid]; exact List.mem_cons_self id ids, rfl⟩
          · exact Or.inl rfl
          · rcases ih _ it h with h' | ⟨ex', hmem', hid', heq'⟩
            · exact Or.inl h'
            · exact Or.inr ⟨ex', hmem', List.mem_cons_of_mem _ hid', heq'⟩
        · simp only [List.mem_cons] at h
          rcases h with rfl | h
          · exact Or.inr ⟨ex, hexmem, by rw [hexid]; exact List.mem_cons_self id ids, rfl⟩
          · rcases ih _ it h with h' | ⟨ex', hmem', hid', heq'⟩
            · exact Or.inl h'
            · exact Or.inr ⟨ex', hmem', List.mem_cons_of_mem _ hid', heq'⟩

/-! ### Decomposition of the eligibility predicate -/

/-- What passing the filter means: the mapped equipment id lies in the
user's equipment set, a beginner ceiling forces the difficulty tag `初階`
and an intermediate ceiling excludes the difficulty tag `高階`. -/
theorem passesFilter_spec {prefs : UserPreferences} {ex : Exercise}
    (h : passesFilter prefs ex = true) :
    prefs.equipment.contains (equipmentId ex.tags) = true ∧
    (prefs.difficulty = "beginner" → getTagValue ex.tags "difficulty" = some "初階") ∧
    (prefs.difficulty = "intermediate" → getTagValue ex.tags "difficulty" ≠ some "高階") := by
  unfold passesFilter at h
  by_cases h1 : prefs.equipment.contains (equipmentId ex.tags) = true
  · rw [h1] at h
    simp only [Bool.not_true, Bool.false_eq_true, if_false] at h
    refine ⟨h1, ?_, ?_⟩
    · intro hb
      rw [if_pos hb] at h
      exact eq_of_beq h
    · intro hi
      have hb : ¬ prefs.difficulty = "beginner" := by
        rw [hi]; decide
      rw [if_neg hb, if_pos hi] at h
      intro heq
      rw [heq] at h
      simp [bne] at h
  · rw [Bool.not_eq_true] at h1
    rw [h1] at h
    simp at h

/-! ### Parsing of the raw AI response (`parseExerciseIds` of part_012 and
the extraction block of the edge function, part_004 lines 166-187) -/

/-- Lazy tail of the regex `\x5b[\s\S]*?\x5d`: consume as few characters
as possible up to and including the first `]`. -/
def takeToClose : List Char → Option (List Char)
  | [] => none
  | c :: cs => if c = ']' then some [']'] else (takeToClose cs).map (fun r => c :: r)

/-- The first (leftmost, shortest) match of the regex `\x5b[\s\S]*?\x5d`
in the response: from the first `[` through the first `]` after it. When
no `]` follows a `[`, no later start position can match either (there is
no `]` left at all), so scanning on is equivalent to the regex engine's
backtracking. -/
def firstBracketSeg : List Char → Option (List Char)
  | [] => none
  | c :: cs =>
    if c = '[' then
      match takeToClose cs with
      | some r => some ('[' :: r)
      | none => firstBracketSeg cs
    else firstBracketSeg cs

/-- A whitespace character, as tolerated around JSON tokens. -/
def isWsChar (c : Char) : Bool :=
  c = ' ' || c = '\t' || c = '\n' || c = '\r'

/-- Trim leading and trailing whitespace from a character list. -/
def trimL (cs : List Char) : List Char :=
  ((cs.dropWhile isWsChar).reverse.dropWhile isWsChar).reverse

/-- One JSON string literal, restricted to escape-free content: a leading
and a trailing double quote around characters that are neither a quote nor
a backslash. Part of the model of `JSON.parse` below. -/
def parseQuoted (cs : List Char) : Option String :=
  if 2 ≤ cs.length ∧ cs.head? = some '"' ∧ cs.getLast? = some '"' then
    if ((cs.drop 1).dropLast).contains '"' || ((cs.drop 1).dropLast).contains '\\' then
      none
    else some (String.mk ((cs.drop 1).dropLast))
  else none

/-- Model of `JSON.parse` applied to the regex-matched segment, followed by
the `filter(id => typeof id === 'string')` step, restricted to arrays of
escape-free string literals (and the empty array): arrays holding any
other element are conservatively treated as a parse failure, which sends
both parsers below to their identifier-pattern pass. `JSON.parse` itself
is a platform primitive with no source in this repository. -/
def parseJsonStringArray (seg : List Char) : Option (List String) :=
  if 2 ≤ seg.length ∧ seg.head? = some '[' ∧ seg.getLast? = some ']' then
    if trimL ((seg.drop 1).dropLast) = [] then some []
    else
      (splitOnCharL ',' ((seg.drop 1).dropLast)).foldr
        (fun p acc =>
          match acc, parseQuoted (trimL p) with
          | some l, some str => some (str :: l)
          | _, _ => none)
        (some [])
  else none

/-- One character class `[a-f0-9]` of the identifier pattern, with the
`i` flag (`gi`). -/
def isHexDigit (c : Char) : Bool :=
  ('0' ≤ c && c ≤ '9') || ('a' ≤ c && c ≤ 'f') || ('A' ≤ c && c ≤ 'F')

/-- Exactly `n` hex digits, returning them and the rest. -/
def takeHex : Nat → List Char → Option (List Char × List Char)
  | 0, cs => some ([], cs)
  | _ + 1, [] => none
  | n + 1, c :: cs =>
    if isHexDigit c then (takeHex n cs).map (fun p => (c :: p.1, p.2)) else none

/-- A literal dash of the identifier pattern. -/
def takeDash : List Char → Option (List Char)
  | '-' :: cs => some cs
  | _ => none

/-- One match of the UUID-shaped pattern
`[a-f0-9]{8}-[a-f0-9]{4}-[a-f0-9]{4}-[a-f0-9]{4}-[a-f0-9]{12}` anchored at
the head of the input, returning the matched text and the rest. -/
def matchUuid (cs : List Char) : Option (List Char × List Char) := do
  let (a, r1) ← takeHex 8 cs
  let r2 ← takeDash r1
  let (b, r3) ← takeHex 4 r2
  let r4 ← takeDash r3
  let (c, r5) ← takeHex 4 r4
  let r6 ← takeDash r5
  let (d, r7) ← takeHex 4 r6
  let r8 ← takeDash r7
  let (e, r9) ← takeHex 12 r8
  pure (a ++ '-' :: b ++ '-' :: c ++ '-' :: d ++ '-' :: e, r9)

/-- Global scan for the identifier pattern: non-overlapping matches, taken
leftmost first, the scan resuming after each match. A fuel of the input
length suffices since every step consumes at least one character. -/
def uuidScanGo : Nat → List Char → List String
  | 0, _ => []
  | _ + 1, [] => []
  | fuel + 1, c :: cs =>
    match matchUuid (c :: cs) with
    | some (m, rest) => String.mk m :: uuidScanGo fuel rest
    | none => uuidScanGo fuel cs

/-- De-duplication preserving first occurrences, the model of
`[...new Set(xs)]` / `Array.from(new Set(xs))`. -/
def uniqGo (seen : List String) : List String → List String
  | [] => []
  | x :: xs => if x ∈ seen then uniqGo seen xs else x :: uniqGo (x :: seen) xs

/-- The identifier-pattern fallback pass shared by both parsers. -/
def uuidScan (s : String) : List String :=
  uniqGo [] (uuidScanGo s.toList.length s.toList)

/-- `parseExerciseIds` of part_012 lines 170-188: locate the first
JSON-array-shaped segment and parse it, returning its string elements
(possibly none at all) on success; on a missing segment or a parse
failure, run the UUID-pattern pass. -/
def parseExerciseIds (response : String) : List String :=
  match firstBracketSeg response.toList with
  | some seg =>
    match parseJsonStringArray seg with
    | some ids => ids
    | none => uuidScan response
  | none => uuidScan response

/-- The id extraction of the edge function (part_004 lines 166-187): same
two passes, but the UUID-pattern pass also runs when the JSON pass
succeeded with an empty result (`selectedIds.length === 0`). -/
def edgeParseIds (responseText : String) : List String :=
  let fromJson :=
    match firstBracketSeg responseText.toList with
    | some seg => (parseJsonStringArray seg).getD []
    | none => []
  if fromJson.length = 0 then uuidScan responseText else fromJson

/-- Every item of a `fallbackGenerate` plan is the rest item or an
exercise item over the given exercise list. -/
theorem fallbackGenerate_mem (rand : Nat → Nat) (exercises : List Exercise)
    (prefs : UserPreferences) (hne : exercises ≠ []) {it : PlanItem}
    (h : it ∈ fallbackGenerate rand exercises prefs) :
    it = restItem ∨ ∃ ex ∈ exercises, it = mkExItem ex := by
  unfold fallbackGenerate at h
  rcases fbGo_mem _ _ (shuffle_ne_nil rand hne) _ _ _ _ h with h' | ⟨ex, hmem, heq⟩
  · exact Or.inl h'
  · exact Or.inr ⟨ex, shuffle_mem hmem, heq⟩

/-- An exercise item drawn from the filtered set satisfies the
equipment membership and the difficulty-ceiling conditions. -/
theorem eligibleItem_of_filter_mem {prefs : UserPreferences} {cat : List Exercise}
    {it : PlanItem}
    (h : it = restItem ∨ ∃ ex ∈ cat.filter (passesFilter prefs), it = mkExItem ex)
    (hex : it.type = ItemType.exercise) :
    ∃ ex, it.exercise = some ex ∧
      prefs.equipment.contains (equipmentId ex.tags) = true ∧
      (prefs.difficulty = "beginner" → getTagValue ex.tags "difficulty" = some "初階") ∧
      (prefs.difficulty = "intermediate" → getTagValue ex.tags "difficulty" ≠ some "高階") := by
  rcases h with rfl | ⟨ex, hmem, rfl⟩
  · exact absurd hex (by decide)
  · obtain ⟨hmem', hpf⟩ := List.mem_filter.mp hmem
    obtain ⟨h1, h2, h3⟩ := passesFilter_spec hpf
    exact ⟨ex, rfl, h1, h2, h3⟩

/-! ### Shared concrete fixtures for witnesses and counterexamples -/

/-- Degenerate randomness: `rand i % (i + 1) = i`, making every
Fisher-Yates swap the identity, so the shuffle returns its input order.
One admissible draw of `Math.random`. -/
def idRand : Nat → Nat := fun i => i

/-- A beginner bodyweight exercise of 30 seconds. -/
def exBW30 : Exercise :=
  { id := "e1", name := "深蹲", description := "", duration_seconds := 30,
    tags := ["equipment:徒手", "difficulty:初階"] }

/-- A beginner bodyweight exercise of 300 seconds. -/
def exBW300 : Exercise :=
  { id := "e3", name := "棒式", description := "", duration_seconds := 300,
    tags := ["equipment:徒手", "difficulty:初階"] }

/-- A beginner bodyweight exercise of 5 seconds. -/
def exBW5 : Exercise :=
  { id := "e5", name := "開合跳", description := "", duration_seconds := 5,
    tags := ["equipment:徒手", "difficulty:初階"] }

/-- A dumbbell exercise with no difficulty tag. -/
def exDumb : Exercise :=
  { id := "ed", name := "彎舉", description := "", duration_seconds := 30,
    tags := ["equipment:啞鈴"] }

/-- Beginner bodyweight preferences, two-minute target. -/
def wprefs : UserPreferences :=
  { goal := "muscle", equipment := ["bodyweight"], durationMinutes := 2,
    difficulty := "beginner" }

/-- Beginner bodyweight preferences, one-minute target. -/
def prefs1 : UserPreferences :=
  { goal := "muscle", equipment := ["bodyweight"], durationMinutes := 1,
    difficulty := "beginner" }

/-- Band-only preferences, one-minute target, advanced ceiling. -/
def prefsBand : UserPreferences :=
  { goal := "muscle", equipment := ["band"], durationMinutes := 1,
    difficulty := "advanced" }

/-! ### Claim C1 -/

/-- C1: for any preferences with `durationMinutes > 0` and any catalog on
which the equipment/difficulty filter is non-empty, `generateAIWorkoutPlan`
resolves with a non-empty plan for every behaviour of the AI tier — in
particular it never rejects, the embedding being a total function whose
`try`/`catch` routes every AI failure into the local fallback — and when
both transports fail the plan is exactly the local shuffle-and-pack
fallback over the filtered set. -/
theorem C1_fallback_totality (rand : Nat → Nat) (ai : AIOutcome)
    (cat : List Exercise) (prefs : UserPreferences)
    (hdur : 0 < prefs.durationMinutes)
    (hne : cat.filter (passesFilter prefs) ≠ []) :
    generateAIWorkoutPlan rand ai cat prefs ≠ [] ∧
    (ai = AIOutcome.fail →
      generateAIWorkoutPlan rand ai cat prefs =
        fallbackGenerate rand (cat.filter (passesFilter prefs)) prefs) := by
  have hlen : ¬ (cat.filter (passesFilter prefs)).length = 0 := by
    intro h
    exact hne (List.length_eq_zero.mp h)
  constructor
  · rcases ai with _ | selected
    · simp only [generateAIWorkoutPlan, if_neg hlen]
      exact fallbackGenerate_ne_nil rand _ prefs hne hdur
    · simp only [generateAIWorkoutPlan, if_neg hlen]
      by_cases hsel : selected.length = 0
      · rw [if_pos hsel]
        exact fallbackGenerate_ne_nil rand _ prefs hne hdur
      · rw [if_neg hsel]
        split
        · exact fallbackGenerate_ne_nil rand _ prefs hne hdur
        · rename_i hcount
          intro hnil
          rw [hnil] at hcount
          simp at hcount
  · intro hai
    subst hai
    simp only [generateAIWorkoutPlan, if_neg hlen]

/-- Witness for C1 at a concrete catalog and preferences, with a failing
AI tier. -/
theorem C1_fallback_totality_witness :
    (0 < wprefs.durationMinutes ∧ [exBW30].filter (passesFilter wprefs) ≠ []) ∧
    (generateAIWorkoutPlan idRand AIOutcome.fail [exBW30] wprefs ≠ [] ∧
     (AIOutcome.fail = AIOutcome.fail →
       generateAIWorkoutPlan idRand AIOutcome.fail [exBW30] wprefs =
         fallbackGenerate idRand ([exBW30].filter (passesFilter wprefs)) wprefs)) :=
  ⟨⟨by decide, by decide⟩,
   C1_fallback_totality idRand AIOutcome.fail [exBW30] wprefs (by decide) (by decide)⟩

/-! ### Claim C2 -/

/-- C2 counterexample: for the single eligible 30s exercise and a
two-minute target, the packed plan's items at positions 2 and 3 are both
exercise items — two consecutive exercises, violating the claimed
structural invariant (the loop inserts no rest once fewer than
`REST_DURATION` seconds remain to the target, yet keeps looping). -/
theorem C2_structural_counterexample :
    ([exBW30].filter (passesFilter wprefs) ≠ [] ∧ 0 < wprefs.durationMinutes) ∧
    ((generateWorkoutPlan idRand [exBW30] wprefs)[2]?).map PlanItem.type =
      some ItemType.exercise ∧
    ((generateWorkoutPlan idRand [exBW30] wprefs)[3]?).map PlanItem.type =
      some ItemType.exercise := by
  decide

/-- C2 amended: for a non-empty eligible set and positive target duration
(with positive exercise durations), every plan of `generateWorkoutPlan`
is non-empty, starts with an exercise item and ends with an exercise
item, and every plan of `fallbackGenerate` is non-empty and starts with
an exercise item; but two consecutive items may both be exercises (when
the remaining gap to the target is at most the rest length), and a
`fallbackGenerate` plan may end on a rest item when its two-cycle cap
stops the loop. -/
theorem C2_structural_amended (rand : Nat → Nat) (cat : List Exercise)
    (prefs : UserPreferences)
    (hdur : 0 < prefs.durationMinutes)
    (hpos : ∀ ex ∈ cat, 0 < ex.duration_seconds)
    (hne : cat.filter (passesFilter prefs) ≠ []) :
    (generateWorkoutPlan rand cat prefs ≠ [] ∧
     (∀ it, (generateWorkoutPlan rand cat prefs).head? = some it →
        it.type = ItemType.exercise) ∧
     (∀ it, (generateWorkoutPlan rand cat prefs).getLast? = some it →
        it.type = ItemType.exercise)) ∧
    (fallbackGenerate rand (cat.filter (passesFilter prefs)) prefs ≠ [] ∧
     (∀ it, (fallbackGenerate rand (cat.filter (passesFilter prefs)) prefs).head? = some it →
        it.type = ItemType.exercise)) := by
  have hlen : ¬ (cat.filter (passesFilter prefs)).length = 0 := by
    intro h
    exact hne (List.length_eq_zero.mp h)
  have hsne : shuffle rand (cat.filter (passesFilter prefs)) ≠ [] :=
    shuffle_ne_nil rand hne
  have hspos : ∀ ex ∈ shuffle rand (cat.filter (passesFilter prefs)),
      0 < ex.duration_seconds := by
    intro ex hex
    exact hpos ex (List.mem_filter.mp (shuffle_mem hex)).1
  have htpos : 0 < prefs.durationMinutes * 60 := by omega
  have hgen : generateWorkoutPlan rand cat prefs =
      packGo (shuffle rand (cat.filter (passesFilter prefs)))
        (prefs.durationMinutes * 60) (prefs.durationMinutes * 60) 0 0 := by
    simp only [generateWorkoutPlan, if_neg hlen]
  obtain ⟨exh, th, hheq⟩ :=
    packGo_head (shuffle rand (cat.filter (passesFilter prefs)))
      (prefs.durationMinutes * 60) (prefs.durationMinutes * 60) 0 0 htpos htpos
  refine ⟨⟨?_, ?_, ?_⟩, ?_, ?_⟩
  · rw [hgen, hheq]
    exact List.cons_ne_nil _ _
  · intro it hit
    rw [hgen, hheq] at hit
    simp only [List.head?_cons, Option.some_inj] at hit
    rw [← hit]
    rfl
  · intro it hit
    rw [hgen] at hit
    exact packGo_last _ _ hsne hspos _ 0 0 htpos (by omega) it hit
  · exact fallbackGenerate_ne_nil rand _ prefs hne hdur
  · intro it hit
    obtain ⟨exf, tf, hfeq⟩ := fallbackGenerate_head rand _ prefs hne hdur
    rw [hfeq] at hit
    simp only [List.head?_cons, Option.some_inj] at hit
    rw [← hit]
    rfl

/-- Witness for the amended C2 at a concrete catalog and preferences. -/
theorem C2_structural_amended_witness :
    (0 < wprefs.durationMinutes ∧ (∀ ex ∈ [exBW30], 0 < ex.duration_seconds) ∧
      [exBW30].filter (passesFilter wprefs) ≠ []) ∧
    ((generateWorkoutPlan idRand [exBW30] wprefs ≠ [] ∧
      (∀ it, (generateWorkoutPlan idRand [exBW30] wprefs).head? = some it →
         it.type = ItemType.exercise) ∧
      (∀ it, (generateWorkoutPlan idRand [exBW30] wprefs).getLast? = some it →
         it.type = ItemType.exercise)) ∧
     (fallbackGenerate idRand ([exBW30].filter (passesFilter wprefs)) wprefs ≠ [] ∧
      (∀ it, (fallbackGenerate idRand ([exBW30].filter (passesFilter wprefs)) wprefs).head? =
          some it → it.type = ItemType.exercise))) :=
  ⟨⟨by decide, by decide, by decide⟩,
   C2_structural_amended idRand [exBW30] wprefs (by decide) (by decide) (by decide)⟩

/-! ### Claim C3 -/

/-- C3 counterexample: with a catalog whose only exercise needs a
dumbbell and preferences owning only a band, the eligible set is empty
and `generateAIWorkoutPlan` (all AI transports failing) returns a plan
whose first item is that dumbbell exercise — an exercise item whose
equipment facet is not a member of `preferences.equipment`. -/
theorem C3_eligibility_counterexample :
    (generateAIWorkoutPlan idRand AIOutcome.fail [exDumb] prefsBand)[0]? =
      some (mkExItem exDumb) ∧
    equipmentId exDumb.tags = "dumbbell" ∧
    prefsBand.equipment.contains (equipmentId exDumb.tags) = false := by
  decide

/-- C3 amended: when the eligible set is non-empty, every exercise item
of a plan produced by `generateWorkoutPlan` or by `generateAIWorkoutPlan`
(any AI behaviour) references an exercise whose mapped equipment id lies
in `preferences.equipment` and whose difficulty tag is `初階` under a
beginner ceiling and is not `高階` under an intermediate ceiling; when
the eligible set is empty the widening/fallback paths ignore both
constraints. -/
theorem C3_eligibility_amended (rand : Nat → Nat) (ai : AIOutcome)
    (cat : List Exercise) (prefs : UserPreferences)
    (hne : cat.filter (passesFilter prefs) ≠ []) :
    (∀ it ∈ generateWorkoutPlan rand cat prefs, it.type = ItemType.exercise →
      ∃ ex, it.exercise = some ex ∧
        prefs.equipment.contains (equipmentId ex.tags) = true ∧
        (prefs.difficulty = "beginner" → getTagValue ex.tags "difficulty" = some "初階") ∧
        (prefs.difficulty = "intermediate" → getTagValue ex.tags "difficulty" ≠ some "高階")) ∧
    (∀ it ∈ generateAIWorkoutPlan rand ai cat prefs, it.type = ItemType.exercise →
      ∃ ex, it.exercise = some ex ∧
        prefs.equipment.contains (equipmentId ex.tags) = true ∧
        (prefs.difficulty = "beginner" → getTagValue ex.tags "difficulty" = some "初階") ∧
        (prefs.difficulty = "intermediate" → getTagValue ex.tags "difficulty" ≠ some "高階")) := by
  have hlen : ¬ (cat.filter (passesFilter prefs)).length = 0 := by
    intro h
    exact hne (List.length_eq_zero.mp h)
  have hsne : shuffle rand (cat.filter (passesFilter prefs)) ≠ [] :=
    shuffle_ne_nil rand hne
  constructor
  · intro it hit hex
    rw [show generateWorkoutPlan rand cat prefs =
        packGo (shuffle rand (cat.filter (passesFilter prefs)))
          (prefs.durationMinutes * 60) (prefs.durationMinutes * 60) 0 0 from by
      simp only [generateWorkoutPlan, if_neg hlen]] at hit
    have hor : it = restItem ∨
        ∃ ex ∈ cat.filter (passesFilter prefs), it = mkExItem ex := by
      rcases packGo_mem _ _ hsne _ _ _ _ hit with h' | ⟨ex, hmem, heq⟩
      · exact Or.inl h'
      · exact Or.inr ⟨ex, shuffle_mem hmem, heq⟩
    exact eligibleItem_of_filter_mem hor hex
  · intro it hit hex
    have hor : it = restItem ∨
        ∃ ex ∈ cat.filter (passesFilter prefs), it = mkExItem ex := by
      rcases ai with _ | selected
      · rw [show generateAIWorkoutPlan rand AIOutcome.fail cat prefs =
            fallbackGenerate rand (cat.filter (passesFilter prefs)) prefs from by
          simp only [generateAIWorkoutPlan, if_neg hlen]] at hit
        exact fallbackGenerate_mem rand _ prefs hne hit
      · rw [show generateAIWorkoutPlan rand (AIOutcome.ids selected) cat prefs =
            (if selected.length = 0 then
              fallbackGenerate rand (cat.filter (passesFilter prefs)) prefs
             else if (List.filter (fun p => p.type == ItemType.exercise)
                (buildFromIds (cat.filter (passesFilter prefs))
                  (prefs.durationMinutes * 60) selected 0)).length < 3 then
              fallbackGenerate rand (cat.filter (passesFilter prefs)) prefs
             else buildFromIds (cat.filter (passesFilter prefs))
               (prefs.durationMinutes * 60) selected 0) from by
          simp only [generateAIWorkoutPlan, if_neg hlen]] at hit
        split at hit
        · exact fallbackGenerate_mem rand _ prefs hne hit
        · split at hit
          · exact fallbackGenerate_mem rand _ prefs hne hit
          · rcases buildFromIds_mem _ _ _ _ _ hit with h' | ⟨ex, hmem, hid, heq⟩
            · exact Or.inl h'
            · exact Or.inr ⟨ex, hmem, heq⟩
    exact eligibleItem_of_filter_mem hor hex

/-- Witness for the amended C3 at a concrete catalog and preferences. -/
theorem C3_eligibility_amended_witness :
    ([exBW30].filter (passesFilter wprefs) ≠ []) ∧
    ((∀ it ∈ generateWorkoutPlan idRand [exBW30] wprefs, it.type = ItemType.exercise →
       ∃ ex, it.exercise = some ex ∧
         wprefs.equipment.contains (equipmentId ex.tags) = true ∧
         (wprefs.difficulty = "beginner" → getTagValue ex.tags "difficulty" = some "初階") ∧
         (wprefs.difficulty = "intermediate" → getTagValue ex.tags "difficulty" ≠ some "高階")) ∧
     (∀ it ∈ generateAIWorkoutPlan idRand AIOutcome.fail [exBW30] wprefs,
        it.type = ItemType.exercise →
       ∃ ex, it.exercise = some ex ∧
         wprefs.equipment.contains (equipmentId ex.tags) = true ∧
         (wprefs.difficulty = "beginner" → getTagValue ex.tags "difficulty" = some "初階") ∧
         (wprefs.difficulty = "intermediate" → getTagValue ex.tags "difficulty" ≠ some "高階"))) :=
  ⟨by decide, C3_eligibility_amended idRand AIOutcome.fail [exBW30] wprefs (by decide)⟩

/-! ### Claim C4 -/

/-- C4 counterexample: with a single eligible 300-second exercise and a
two-minute (120s) target, the locally packed plan lasts 300 seconds —
deviating from the target by 180 seconds, more than the claimed
`max(60, restSeconds) = 60` tolerance. -/
theorem C4_budget_counterexample :
    ([exBW300].filter (passesFilter wprefs) ≠ [] ∧ 0 < wprefs.durationMinutes) ∧
    wprefs.durationMinutes * 60 + 60 <
      planDuration (generateWorkoutPlan idRand [exBW300] wprefs) := by
  decide

/-- C4 amended: for plans produced purely by local packing the deviation
is bounded by the maximum exercise duration, not by 60: with every
eligible duration positive and at most `D`, `generateWorkoutPlan`'s plan
lasts at least the target and strictly less than `target + D`, and
`fallbackGenerate`'s plan lasts strictly less than `target + D` (its
two-cycle cap may additionally leave it under-filled by an arbitrary
amount). The claimed 60-second bound is recovered only when every
eligible duration is at most 61 seconds. -/
theorem C4_budget_amended (rand : Nat → Nat) (cat : List Exercise)
    (prefs : UserPreferences) (D : Nat)
    (hdur : 0 < prefs.durationMinutes)
    (hne : cat.filter (passesFilter prefs) ≠ [])
    (hpos : ∀ ex ∈ cat, 0 < ex.duration_seconds)
    (hD : ∀ ex ∈ cat, ex.duration_seconds ≤ D) :
    (prefs.durationMinutes * 60 ≤ planDuration (generateWorkoutPlan rand cat prefs) ∧
     planDuration (generateWorkoutPlan rand cat prefs) < prefs.durationMinutes * 60 + D) ∧
    planDuration (fallbackGenerate rand (cat.filter (passesFilter prefs)) prefs) <
      prefs.durationMinutes * 60 + D := by
  have hlen : ¬ (cat.filter (passesFilter prefs)).length = 0 := by
    intro h
    exact hne (List.length_eq_zero.mp h)
  have hsne : shuffle rand (cat.filter (passesFilter prefs)) ≠ [] :=
    shuffle_ne_nil rand hne
  have hspos : ∀ ex ∈ shuffle rand (cat.filter (passesFilter prefs)),
      0 < ex.duration_seconds := by
    intro ex hex
    exact hpos ex (List.mem_filter.mp (shuffle_mem hex)).1
  have hsD : ∀ ex ∈ shuffle rand (cat.filter (passesFilter prefs)),
      ex.duration_seconds ≤ D := by
    intro ex hex
    exact hD ex (List.mem_filter.mp (shuffle_mem hex)).1
  have htpos : 0 < prefs.durationMinutes * 60 := by omega
  constructor
  · rw [show generateWorkoutPlan rand cat prefs =
        packGo (shuffle rand (cat.filter (passesFilter prefs)))
          (prefs.durationMinutes * 60) (prefs.durationMinutes * 60) 0 0 from by
      simp only [generateWorkoutPlan, if_neg hlen]]
    have := packGo_sum (shuffle rand (cat.filter (passesFilter prefs)))
      (prefs.durationMinutes * 60) D hsne hspos hsD
      (prefs.durationMinutes * 60) 0 0 htpos (by omega)
    omega
  · unfold fallbackGenerate
    have := fbGo_sum (shuffle rand (cat.filter (passesFilter prefs)))
      (prefs.durationMinutes * 60) D hsne hsD
      ((shuffle rand (cat.filter (passesFilter prefs))).length * 2 + 1) 0 0 htpos
    omega

/-- Witness for the amended C4 at a concrete catalog and preferences. -/
theorem C4_budget_amended_witness :
    (0 < wprefs.durationMinutes ∧ [exBW30].filter (passesFilter wprefs) ≠ [] ∧
     (∀ ex ∈ [exBW30], 0 < ex.duration_seconds) ∧
     (∀ ex ∈ [exBW30], ex.duration_seconds ≤ 30)) ∧
    ((wprefs.durationMinutes * 60 ≤ planDuration (generateWorkoutPlan idRand [exBW30] wprefs) ∧
      planDuration (generateWorkoutPlan idRand [exBW30] wprefs) <
        wprefs.durationMinutes * 60 + 30) ∧
     planDuration (fallbackGenerate idRand ([exBW30].filter (passesFilter wprefs)) wprefs) <
       wprefs.durationMinutes * 60 + 30) :=
  ⟨⟨by decide, by decide, by decide, by decide⟩,
   C4_budget_amended idRand [exBW30] wprefs 30 (by decide) (by decide) (by decide) (by decide)⟩

/-! ### Claim C5 -/

/-- C5 counterexample: for a catalog whose only exercise needs a dumbbell
and band-only preferences, the eligible set is empty and stays empty
after the bodyweight widening, yet no error is surfaced:
`generateWorkoutPlan` resolves with the empty plan and
`generateAIWorkoutPlan` (all AI transports failing) resolves with a
non-empty plan packed from the unfiltered catalog. -/
theorem C5_propagation_counterexample :
    [exDumb].filter (passesFilter prefsBand) = [] ∧
    [exDumb].filter (fun ex => ex.tags.contains "equipment:徒手") = [] ∧
    generateWorkoutPlan idRand [exDumb] prefsBand = [] ∧
    generateAIWorkoutPlan idRand AIOutcome.fail [exDumb] prefsBand ≠ [] := by
  decide

/-- C5 amended: when the eligibility filter yields an empty set, no error
condition is surfaced at all: `generateWorkoutPlan` resolves with the
bodyweight-widened plan (up to five `equipment:徒手`-tagged catalog
exercises; the empty plan when none exists), and `generateAIWorkoutPlan`
resolves with a fallback plan packed from the entire unfiltered catalog.
Neither entry point has a `NoEligibleExercises` (or any other) error
outcome. -/
theorem C5_propagation_amended (rand : Nat → Nat) (ai : AIOutcome)
    (cat : List Exercise) (prefs : UserPreferences)
    (h : cat.filter (passesFilter prefs) = []) :
    generateWorkoutPlan rand cat prefs =
      ((cat.filter (fun ex => ex.tags.contains "equipment:徒手")).take 5).map mkExItem ∧
    generateAIWorkoutPlan rand ai cat prefs = fallbackGenerate rand cat prefs := by
  have hlen : (cat.filter (passesFilter prefs)).length = 0 := by
    rw [h]
    rfl
  constructor
  · simp only [generateWorkoutPlan, if_pos hlen]
  · simp only [generateAIWorkoutPlan, if_pos hlen]

/-- Witness for the amended C5 at a concrete catalog and preferences. -/
theorem C5_propagation_amended_witness :
    ([exDumb].filter (passesFilter prefsBand) = []) ∧
    (generateWorkoutPlan idRand [exDumb] prefsBand =
       (([exDumb].filter (fun ex => ex.tags.contains "equipment:徒手")).take 5).map mkExItem ∧
     generateAIWorkoutPlan idRand AIOutcome.fail [exDumb] prefsBand =
       fallbackGenerate idRand [exDumb] prefsBand) :=
  ⟨by decide, C5_propagation_amended idRand AIOutcome.fail [exDumb] prefsBand (by decide)⟩

/-! ### Claim C6 -/

/-- C6: an AI-suggested id absent from the eligible set's ids contributes
no item at all (the assembly is the same as without it), every exercise
item of the assembled plan references an eligible exercise whose id was
suggested, and when the assembled plan holds fewer than 3 exercise items
`generateAIWorkoutPlan` discards it in favour of the local fallback tier
over the eligible set. -/
theorem C6_id_validation (rand : Nat → Nat) (cat : List Exercise)
    (prefs : UserPreferences) (selected : List String)
    (i : String) (ids : List String) (cur : Nat)
    (hne : cat.filter (passesFilter prefs) ≠ [])
    (hsel : selected ≠ []) :
    (i ∉ (cat.filter (passesFilter prefs)).map Exercise.id →
      buildFromIds (cat.filter (passesFilter prefs)) (prefs.durationMinutes * 60)
          (i :: ids) cur =
        buildFromIds (cat.filter (passesFilter prefs)) (prefs.durationMinutes * 60) ids cur) ∧
    (∀ it ∈ buildFromIds (cat.filter (passesFilter prefs))
        (prefs.durationMinutes * 60) selected 0,
      it.type = ItemType.exercise →
        ∃ ex, it.exercise = some ex ∧ ex ∈ cat.filter (passesFilter prefs) ∧
          ex.id ∈ selected) ∧
    (countExercise (buildFromIds (cat.filter (passesFilter prefs))
        (prefs.durationMinutes * 60) selected 0) < 3 →
      generateAIWorkoutPlan rand (AIOutcome.ids selected) cat prefs =
        fallbackGenerate rand (cat.filter (passesFilter prefs)) prefs) := by
  have hlen : ¬ (cat.filter (passesFilter prefs)).length = 0 := by
    intro hl
    exact hne (List.length_eq_zero.mp hl)
  have hsel' : ¬ selected.length = 0 := by
    intro hl
    exact hsel (List.length_eq_zero.mp hl)
  refine ⟨?_, ?_, ?_⟩
  · intro hni
    exact buildFromIds_skip _ _ i ids cur hni
  · intro it hit hex
    rcases buildFromIds_mem _ _ _ _ _ hit with h' | ⟨ex, hmem, hid, heq⟩
    · rw [h'] at hex
      exact absurd hex (by decide)
    · exact ⟨ex, by rw [heq]; rfl, hmem, hid⟩
  · intro hcnt
    unfold countExercise at hcnt
    simp only [generateAIWorkoutPlan, if_neg hlen, if_neg hsel']
    rw [if_pos hcnt]

/-- Witness for C6: a suggested id matching nothing eligible yields the
empty assembly, whose exercise count 0 is below 3, so the coordinator
advances to the fallback tier. -/
theorem C6_id_validation_witness :
    ([exBW30].filter (passesFilter wprefs) ≠ [] ∧ (["zzz"] : List String) ≠ []) ∧
    (("zzz" ∉ ([exBW30].filter (passesFilter wprefs)).map Exercise.id →
       buildFromIds ([exBW30].filter (passesFilter wprefs)) (wprefs.durationMinutes * 60)
           ("zzz" :: []) 0 =
         buildFromIds ([exBW30].filter (passesFilter wprefs))
           (wprefs.durationMinutes * 60) [] 0) ∧
     (∀ it ∈ buildFromIds ([exBW30].filter (passesFilter wprefs))
         (wprefs.durationMinutes * 60) ["zzz"] 0,
       it.type = ItemType.exercise →
         ∃ ex, it.exercise = some ex ∧ ex ∈ [exBW30].filter (passesFilter wprefs) ∧
           ex.id ∈ ["zzz"]) ∧
     (countExercise (buildFromIds ([exBW30].filter (passesFilter wprefs))
         (wprefs.durationMinutes * 60) ["zzz"] 0) < 3 →
       generateAIWorkoutPlan idRand (AIOutcome.ids ["zzz"]) [exBW30] wprefs =
         fallbackGenerate idRand ([exBW30].filter (passesFilter wprefs)) wprefs)) :=
  ⟨⟨by decide, by decide⟩,
   C6_id_validation idRand [exBW30] wprefs ["zzz"] "zzz" [] 0 (by decide) (by decide)⟩

/-! ### Claim C7 -/

/-- C7 counterexample: `generateWorkoutPlan`'s packing loop has no cycle
cap — for a single eligible 5-second exercise and a one-minute target it
emits 6 exercise items, more than `2 * n = 2`. -/
theorem C7_cycle_counterexample :
    ([exBW5].filter (passesFilter prefs1) ≠ [] ∧
     (∀ ex ∈ [exBW5], 0 < ex.duration_seconds)) ∧
    2 * ([exBW5].filter (passesFilter prefs1)).length <
      countExercise (generateWorkoutPlan idRand [exBW5] prefs1) := by
  decide

/-- C7 amended: the two-cycle cap belongs to `fallbackGenerate` alone,
whose loop emits at most `2 * n` exercise items for an `n`-element
eligible set; `generateWorkoutPlan`'s loop is uncapped (it may emit more
than `2 * n` items) but still terminates for every non-empty eligible set
of positive-duration exercises, its result unchanged under any fuel of at
least `target` seconds. -/
theorem C7_termination_amended (rand : Nat → Nat) (cat : List Exercise)
    (prefs : UserPreferences) (fuel : Nat)
    (hne : cat.filter (passesFilter prefs) ≠ [])
    (hpos : ∀ ex ∈ cat, 0 < ex.duration_seconds)
    (hfuel : prefs.durationMinutes * 60 ≤ fuel) :
    countExercise (fallbackGenerate rand (cat.filter (passesFilter prefs)) prefs) ≤
      (cat.filter (passesFilter prefs)).length * 2 ∧
    packGo (shuffle rand (cat.filter (passesFilter prefs))) (prefs.durationMinutes * 60)
        fuel 0 0 = generateWorkoutPlan rand cat prefs := by
  have hlen : ¬ (cat.filter (passesFilter prefs)).length = 0 := by
    intro hl
    exact hne (List.length_eq_zero.mp hl)
  have hsne : shuffle rand (cat.filter (passesFilter prefs)) ≠ [] :=
    shuffle_ne_nil rand hne
  have hspos : ∀ ex ∈ shuffle rand (cat.filter (passesFilter prefs)),
      0 < ex.duration_seconds := by
    intro ex hex
    exact hpos ex (List.mem_filter.mp (shuffle_mem hex)).1
  constructor
  · unfold fallbackGenerate
    have hcnt := fbGo_count (shuffle rand (cat.filter (passesFilter prefs)))
      (prefs.durationMinutes * 60)
      ((shuffle rand (cat.filter (passesFilter prefs))).length * 2 + 1) 0 0
    have hl := shuffle_length rand (cat.filter (passesFilter prefs))
    omega
  · rw [show generateWorkoutPlan rand cat prefs =
        packGo (shuffle rand (cat.filter (passesFilter prefs)))
          (prefs.durationMinutes * 60) (prefs.durationMinutes * 60) 0 0 from by
      simp only [generateWorkoutPlan, if_neg hlen]]
    exact packGo_stable _ _ hsne hspos fuel (prefs.durationMinutes * 60) 0 0
      (by omega) (by omega)

/-- Witness for the amended C7 at a concrete catalog and preferences. -/
theorem C7_termination_amended_witness :
    ([exBW30].filter (passesFilter prefs1) ≠ [] ∧
     (∀ ex ∈ [exBW30], 0 < ex.duration_seconds) ∧
     prefs1.durationMinutes * 60 ≤ 100) ∧
    (countExercise (fallbackGenerate idRand ([exBW30].filter (passesFilter prefs1)) prefs1) ≤
       ([exBW30].filter (passesFilter prefs1)).length * 2 ∧
     packGo (shuffle idRand ([exBW30].filter (passesFilter prefs1)))
         (prefs1.durationMinutes * 60) 100 0 0 =
       generateWorkoutPlan idRand [exBW30] prefs1) :=
  ⟨⟨by decide, by decide, by decide⟩,
   C7_termination_amended idRand [exBW30] prefs1 100 (by decide) (by decide) (by decide)⟩

/-! ### Claim C8 -/

/-- C8: on the raw AI response `Sure! ["id1","id2","id3"] enjoy!`, both
`parseExerciseIds` and the edge function's extraction recover exactly
`["id1","id2","id3"]`, in order, through the JSON-array-extraction
pass. -/
theorem C8_parse_scenarioD :
    parseExerciseIds "Sure! [\"id1\",\"id2\",\"id3\"] enjoy!" = ["id1", "id2", "id3"] ∧
    edgeParseIds "Sure! [\"id1\",\"id2\",\"id3\"] enjoy!" = ["id1", "id2", "id3"] := by
  decide

/-! ### Claim C9 -/

/-- C9: an exercise whose equipment tag is missing, or names none of the
four recognised labels, is classified as requiring `bodyweight`, and
therefore passes the eligibility filter's equipment membership test
exactly when `bodyweight` is in `preferences.equipment`, whatever its tag
actually names. -/
theorem C9_unrecognized_equipment (tags : List String) (prefs : UserPreferences)
    (h : Option.all
        (fun v => !(v == "啞鈴" || v == "彈力帶" || v == "壺鈴" || v == "徒手"))
        (getTagValue tags "equipment") = true) :
    equipmentId tags = "bodyweight" ∧
    prefs.equipment.contains (equipmentId tags) =
      prefs.equipment.contains "bodyweight" := by
  have heq : equipmentId tags = "bodyweight" := by
    rcases hv : getTagValue tags "equipment" with _ | v
    · simp [equipmentId, hv]
    · rw [hv] at h
      simp only [Option.all_some, Bool.not_eq_true', Bool.or_eq_false_iff,
        beq_eq_false_iff_ne, ne_eq] at h
      obtain ⟨⟨⟨h1, h2⟩, h3⟩, h4⟩ := h
      simp [equipmentId, hv, h1, h2, h3, h4]
  rw [heq]
  exact ⟨rfl, rfl⟩

/-- Witness for C9 at a concrete unrecognised tag (`槓鈴`, barbell). -/
theorem C9_unrecognized_equipment_witness :
    (Option.all
        (fun v => !(v == "啞鈴" || v == "彈力帶" || v == "壺鈴" || v == "徒手"))
        (getTagValue ["equipment:槓鈴"] "equipment") = true) ∧
    (equipmentId ["equipment:槓鈴"] = "bodyweight" ∧
     wprefs.equipment.contains (equipmentId ["equipment:槓鈴"]) =
       wprefs.equipment.contains "bodyweight") :=
  ⟨by decide, C9_unrecognized_equipment ["equipment:槓鈴"] wprefs (by decide)⟩

/-! ### Claim C10 -/

/-- C10: when the eligibility filter is empty, `generateWorkoutPlan`
returns exactly the first five `equipment:徒手`-tagged catalog exercises
as exercise items — so at most 5 items, all of kind exercise with no
rests, independent of the requested duration — and the empty plan when no
catalog exercise carries that tag. -/
theorem C10_widening_branch (rand : Nat → Nat) (cat : List Exercise)
    (prefs : UserPreferences)
    (h : cat.filter (passesFilter prefs) = []) :
    generateWorkoutPlan rand cat prefs =
      ((cat.filter (fun ex => ex.tags.contains "equipment:徒手")).take 5).map mkExItem ∧
    (generateWorkoutPlan rand cat prefs).length ≤ 5 ∧
    (∀ it ∈ generateWorkoutPlan rand cat prefs, it.type = ItemType.exercise) ∧
    (∀ m, generateWorkoutPlan rand cat
        { goal := prefs.goal, equipment := prefs.equipment, durationMinutes := m,
          difficulty := prefs.difficulty } = generateWorkoutPlan rand cat prefs) ∧
    (cat.filter (fun ex => ex.tags.contains "equipment:徒手") = [] →
      generateWorkoutPlan rand cat prefs = []) := by
  have hlen : (cat.filter (passesFilter prefs)).length = 0 := by
    rw [h]
    rfl
  have hgen : generateWorkoutPlan rand cat prefs =
      ((cat.filter (fun ex => ex.tags.contains "equipment:徒手")).take 5).map mkExItem := by
    simp only [generateWorkoutPlan, if_pos hlen]
  refine ⟨hgen, ?_, ?_, ?_, ?_⟩
  · rw [hgen, List.length_map, List.length_take]
    omega
  · intro it hit
    rw [hgen] at hit
    obtain ⟨ex, hmem, heq⟩ := List.mem_map.mp hit
    rw [← heq]
    rfl
  · intro m
    have hlen' : (cat.filter (passesFilter
        { goal := prefs.goal, equipment := prefs.equipment, durationMinutes := m,
          difficulty := prefs.difficulty })).length = 0 := hlen
    rw [hgen]
    simp only [generateWorkoutPlan, if_pos hlen']
  · intro h0
    rw [hgen, h0]
    rfl

/-- Witness for C10: a catalog with one dumbbell and one bodyweight
exercise, band-only preferences. -/
theorem C10_widening_branch_witness :
    ([exDumb, exBW30].filter (passesFilter prefsBand) = []) ∧
    (generateWorkoutPlan idRand [exDumb, exBW30] prefsBand =
       (([exDumb, exBW30].filter
           (fun ex => ex.tags.contains "equipment:徒手")).take 5).map mkExItem ∧
     (generateWorkoutPlan idRand [exDumb, exBW30] prefsBand).length ≤ 5 ∧
     (∀ it ∈ generateWorkoutPlan idRand [exDumb, exBW30] prefsBand,
        it.type = ItemType.exercise) ∧
     (∀ m, generateWorkoutPlan idRand [exDumb, exBW30]
         { goal := prefsBand.goal, equipment := prefsBand.equipment, durationMinutes := m,
           difficulty := prefsBand.difficulty } =
       generateWorkoutPlan idRand [exDumb, exBW30] prefsBand) ∧
     ([exDumb, exBW30].filter (fun ex => ex.tags.contains "equipment:徒手") = [] →
       generateWorkoutPlan idRand [exDumb, exBW30] prefsBand = [])) :=
  ⟨by decide, C10_widening_branch idRand [exDumb, exBW30] prefsBand (by decide)⟩
